import Mathlib

/-!
# Verification of the Mean-Reversion-Strats repository

Shallow embedding of the Ornstein-Uhlenbeck process model (`ou_process.py`)
and the mean-reversion trading strategy (`trading_strategy.py`), together
with theorems settling the specification claims.

Modelling conventions:
* Python machine floats are idealised as exact numbers: `ℝ` where the source
  takes square roots, exponentials or logarithms (OU analytics, signal
  z-scores), `ℚ` where the source only performs field arithmetic and
  comparisons (the backtest cash/position state machine), so that concrete
  runs can be evaluated by `decide`.  The signal z-score pipeline, whose
  behaviour on a non-mean-reverting fit is decided by IEEE special values
  (`nan`, signed zeros and infinities), carries those classes explicitly.
* The parameter estimator (`ou_estimator.py`, not part of the sources here)
  is treated as an external oracle: a fit either has not happened
  (parameters are `None`) or produced some triple `(theta, mu, sigma)`;
  theorems quantify over all possible fit outcomes.
* `np.random` is modelled by explicitly threading the global generator
  state: a pair (seed of the last reseed, number of draws consumed), with
  the actual normal draws given by an oracle function of that pair.
-/

namespace MeanReversion

/-- The discrete signal returned by `MeanReversionStrategy.generate_signal`
(`trading_strategy.py` lines 41-54); the source returns a pair
`(int, str)` with `-1 ↔ "SELL"`, `1 ↔ "BUY"`, `0 ↔ "HOLD"/"NO_SIGNAL"`. -/
inductive Signal where
  | SELL
  | BUY
  | HOLD
  | NO_SIGNAL
deriving DecidableEq, Repr

/-! ## OUProcess (`ou_process.py`) -/

/-- The OU process model object (`ou_process.py` lines 14-20).  The mutable
`self.x0` field is only a convenience default for `expected_value` and is
not modelled; `x0` is passed explicitly where used. -/
structure OUProcess where
  theta : ℝ
  mu : ℝ
  sigma : ℝ
  dt : ℝ

/-- Embedding of `OUProcess.expected_value` (`ou_process.py` lines 63-66):
`mu + (x0 - mu) * exp(-theta * t)`, with `x0` passed explicitly. -/
noncomputable def OUProcess.expected_value (P : OUProcess) (t x0 : ℝ) : ℝ :=
  P.mu + (x0 - P.mu) * Real.exp (-P.theta * t)

/-- Embedding of `OUProcess.variance` (`ou_process.py` lines 68-69):
`sigma^2 * (1 - exp(-2 theta t)) / (2 theta)`. -/
noncomputable def OUProcess.variance (P : OUProcess) (t : ℝ) : ℝ :=
  P.sigma ^ 2 * (1 - Real.exp (-2 * P.theta * t)) / (2 * P.theta)

/-- Embedding of `OUProcess.stationary_variance` (`ou_process.py` lines 94-97): returns
`None` when `theta <= 0`, otherwise `sigma^2 / (2 theta)`. -/
noncomputable def OUProcess.stationary_variance (P : OUProcess) : Option ℝ :=
  if P.theta ≤ 0 then none else some (P.sigma ^ 2 / (2 * P.theta))

/-- Embedding of `OUProcess.half_life` (`ou_process.py` lines 99-100):
`np.log(2) / self.theta`, computed unconditionally (no check on `theta`). -/
noncomputable def OUProcess.half_life (P : OUProcess) : ℝ :=
  Real.log 2 / P.theta

/-! ### Simulation with the shared numpy global generator

`np.random.seed` / `np.random.normal` act on one process-wide generator.
We model its state as `(s, i)`: the seed passed to the most recent
`np.random.seed(s)` call together with the number of draws consumed since,
and take the draws themselves from an oracle `ℕ → ℕ → ℝ` mapping `(s, i)`
to the `i`-th standard-normal variate of the stream seeded by `s`. -/

/-- State of the shared `np.random` global generator. -/
def RngState : Type := ℕ × ℕ

/-- Model of `np.random.seed(s)`: overwrites the shared generator state. -/
def npSeed (s : ℕ) (_g : RngState) : RngState := (s, 0)

/-- Model of `np.random.normal(0, 1)`: draws from the shared generator, advancing it. -/
def npNormal (oracle : ℕ → ℕ → ℝ) (g : RngState) : ℝ × RngState :=
  (oracle g.1 g.2, (g.1, g.2 + 1))

/-- Loop body of `OUProcess.simulate` (`ou_process.py` lines 35-38):
`path[i] = path[i-1] + theta*(mu - path[i-1])*dt + sigma*N(0,1)*sqrt(dt)`,
producing the remaining `k` path entries after `prev`. -/
noncomputable def simAux (P : OUProcess) (oracle : ℕ → ℕ → ℝ) (sqrt_dt : ℝ)
    (prev : ℝ) (k : ℕ) (g : RngState) : List ℝ × RngState :=
  match k with
  | 0 => ([], g)
  | k + 1 =>
    let d := npNormal oracle g
    let next := prev + P.theta * (P.mu - prev) * P.dt + P.sigma * d.1 * sqrt_dt
    let rest := simAux P oracle sqrt_dt next k d.2
    (next :: rest.1, rest.2)

/-- Embedding of `OUProcess.simulate` (`ou_process.py` lines 22-40), Euler-Maruyama.
An explicit seed first overwrites the shared global generator state;
the `x0=None → mu` defaulting is left to the caller. -/
noncomputable def OUProcess.simulate (P : OUProcess) (oracle : ℕ → ℕ → ℝ)
    (n_steps : ℕ) (x0 : ℝ) (seed : Option ℕ) (g : RngState) :
    List ℝ × RngState :=
  let g1 := match seed with
    | some s => npSeed s g
    | none => g
  match n_steps with
  | 0 => ([], g1)
  | k + 1 =>
    let rest := simAux P oracle (Real.sqrt P.dt) x0 k g1
    (x0 :: rest.1, rest.2)

/-- Loop body of `OUProcess.simulate_exact` (`ou_process.py` lines 57-59):
`path[i] = mu + (path[i-1] - mu)*exp(-theta*dt) + N(0, std_dev)`; a draw
with standard deviation `std_dev` is modelled as `std_dev` times a unit
draw from the shared stream. -/
noncomputable def simExactAux (P : OUProcess) (oracle : ℕ → ℕ → ℝ)
    (e std_dev : ℝ) (prev : ℝ) (k : ℕ) (g : RngState) : List ℝ × RngState :=
  match k with
  | 0 => ([], g)
  | k + 1 =>
    let d := npNormal oracle g
    let next := P.mu + (prev - P.mu) * e + std_dev * d.1
    let rest := simExactAux P oracle e std_dev next k d.2
    (next :: rest.1, rest.2)

/-- Embedding of `OUProcess.simulate_exact` (`ou_process.py` lines 42-61), the exact
transition sampler with variance floored at `0.001`. -/
noncomputable def OUProcess.simulate_exact (P : OUProcess)
    (oracle : ℕ → ℕ → ℝ) (n_steps : ℕ) (x0 : ℝ) (seed : Option ℕ)
    (g : RngState) : List ℝ × RngState :=
  let g1 := match seed with
    | some s => npSeed s g
    | none => g
  let e := Real.exp (-P.theta * P.dt)
  let variance := P.sigma ^ 2 * (1 - Real.exp (-2 * P.theta * P.dt)) / (2 * P.theta)
  let std_dev := Real.sqrt (max variance 0.001)
  match n_steps with
  | 0 => ([], g1)
  | k + 1 =>
    let rest := simExactAux P oracle e std_dev x0 k g1
    (x0 :: rest.1, rest.2)

/-! ## MeanReversionStrategy, signal half (`trading_strategy.py`) -/

/-- The signal-relevant state of a `MeanReversionStrategy` object:
`fitted = none` models the freshly constructed object
(`theta = mu = sigma = None`, lines 18-20); `fitted = some (θ, μ, σ)`
models the state after `fit` stored whatever triple the estimator
returned (lines 35-37).  `fit` always assigns all three fields, so the
reachable states set either none or all of them. -/
structure MeanReversionStrategy where
  fitted : Option (ℝ × ℝ × ℝ)
  threshold_sigma : ℝ

/-! ### IEEE-754 semantics of the z-score pipeline

The source computes `stationary_std = np.sqrt(sigma**2/(2*theta))` and
`z_score = deviation/stationary_std` on IEEE doubles (lines 45-47), with
no exception raised: fitted parameters outside the mean-reverting regime
flow through `nan`, signed zeros and signed infinities.  A real-number
idealisation with junk conventions (square root of a negative is `0`,
division by `0` is `0`) would collapse the reachable case
`sigma = 0, theta < 0`, where the source produces `std = -0.0`,
`z = ∓inf` and answers BUY/SELL.  So the nonzero-finite values are kept
as exact reals and the special classes are modelled explicitly. -/

/-- The IEEE-754 double value classes the z-score pipeline can produce:
`nan`, signed infinities, signed zeros, and nonzero finite values
(idealised as exact reals). -/
inductive FloatClass where
  | nan
  | inf (neg : Bool)
  | zero (neg : Bool)
  | fin (x : ℝ)

/-- Float division `a / b` of finite reals, as in `sigma**2/(2*theta)`:
division by the (unsigned, hence positive) zero gives `±inf` for nonzero
`a` and `nan` for `0/0`; a zero numerator keeps the denominator's sign on
the resulting zero (IEEE: `0.0/negative = -0.0`). -/
noncomputable def fdiv (a b : ℝ) : FloatClass :=
  if b = 0 then
    (if a = 0 then .nan else if 0 < a then .inf false else .inf true)
  else if a = 0 then (if b < 0 then .zero true else .zero false)
  else .fin (a / b)

/-- Model of `np.sqrt` on a double: `sqrt(nan) = nan`, `sqrt(-inf) = nan`,
`sqrt(+inf) = +inf`, `sqrt(±0.0) = ±0.0` (IEEE-754 keeps the sign of
zero), `sqrt` of a negative finite is `nan` (with a runtime warning, not
an exception), otherwise the exact square root. -/
noncomputable def fsqrt : FloatClass → FloatClass
  | .nan => .nan
  | .inf neg => if neg then .nan else .inf false
  | .zero neg => .zero neg
  | .fin x => if x < 0 then .nan else .fin (Real.sqrt x)

/-- Float division of the finite real `deviation` by the computed
standard deviation: dividing by `nan` gives `nan`; dividing by `±inf`
gives a zero; dividing by `±0.0` gives `nan` for a zero numerator and an
infinity carrying the quotient's sign otherwise (IEEE: a positive value
divided by `-0.0` is `-inf`); dividing by a nonzero finite value is
exact real division. -/
noncomputable def zdiv (a : ℝ) : FloatClass → FloatClass
  | .nan => .nan
  | .inf neg =>
    if a < 0 then (if neg then .zero false else .zero true)
    else (if neg then .zero true else .zero false)
  | .zero neg =>
    if a = 0 then .nan
    else if a < 0 then (if neg then .inf false else .inf true)
    else (if neg then .inf true else .inf false)
  | .fin s =>
    if a = 0 then (if s < 0 then .zero true else .zero false)
    else .fin (a / s)

/-- The IEEE comparison `v > t` against a finite threshold: false for
`nan`, decided by the infinity's sign, and `±0.0` compares equal to `0`. -/
def fgt : FloatClass → ℝ → Prop
  | .nan, _ => False
  | .inf neg, _ => neg = false
  | .zero _, t => 0 > t
  | .fin x, t => x > t

/-- The IEEE comparison `v < t` against a finite threshold: false for
`nan`, decided by the infinity's sign, and `±0.0` compares equal to `0`. -/
def flt : FloatClass → ℝ → Prop
  | .nan, _ => False
  | .inf neg, _ => neg = true
  | .zero _, t => 0 < t
  | .fin x, t => x < t

noncomputable instance (v : FloatClass) (t : ℝ) : Decidable (fgt v t) := by
  cases v <;> dsimp only [fgt] <;> infer_instance

noncomputable instance (v : FloatClass) (t : ℝ) : Decidable (flt v t) := by
  cases v <;> dsimp only [flt] <;> infer_instance

/-- Embedding of `MeanReversionStrategy.generate_signal`
(`trading_strategy.py` lines 41-54), with the float pipeline of lines
45-47 made explicit: `stationary_std = np.sqrt(sigma**2/(2*theta))`,
`z_score = deviation/stationary_std`, and the two strict comparisons of
lines 49 and 51 under IEEE semantics (in particular both are false when
the z-score is `nan`). -/
noncomputable def MeanReversionStrategy.generate_signal
    (self : MeanReversionStrategy) (current_value : ℝ) : Signal :=
  match self.fitted with
  | none => .NO_SIGNAL
  | some (theta, mu, sigma) =>
    let stationary_std := fsqrt (fdiv (sigma ^ 2) (2 * theta))
    let deviation := current_value - mu
    let z_score := zdiv deviation stationary_std
    if fgt z_score self.threshold_sigma then .SELL
    else if flt z_score (-self.threshold_sigma) then .BUY
    else .HOLD

/-- Embedding of `MeanReversionStrategy.get_position_size` (`trading_strategy.py`
lines 70-78); the source's guard tests only `mu` and `sigma` for `None`,
which in reachable states coincides with being unfitted.
`np.clip(v, 0, hi)` is `min (max v 0) hi`. -/
noncomputable def MeanReversionStrategy.get_position_size
    (self : MeanReversionStrategy) (current_value base_size : ℝ) : ℝ :=
  match self.fitted with
  | none => 0
  | some (_theta, mu, sigma) =>
    let deviation := current_value - mu
    let z_score := |deviation| / sigma
    let position_size := base_size * z_score / self.threshold_sigma
    min (max position_size 0) (base_size * 2)

/-- Embedding of `MeanReversionStrategy.get_stop_loss` (`trading_strategy.py`
lines 80-88): `(None, None)` before a fit, otherwise
`(mu - k*stationary_std, mu + k*stationary_std)`. -/
noncomputable def MeanReversionStrategy.get_stop_loss
    (self : MeanReversionStrategy) (k : ℝ) : Option ℝ × Option ℝ :=
  match self.fitted with
  | none => (none, none)
  | some (theta, mu, sigma) =>
    let stationary_var := sigma ^ 2 / (2 * theta)
    (some (mu - k * Real.sqrt stationary_var),
     some (mu + k * Real.sqrt stationary_var))

/-! ## MeanReversionStrategy, backtest half (`trading_strategy.py` lines 100-237)

`backtest` first calls `fit`, then uses the fitted parameters only through
`mu` and the precomputed `stationary_std = sqrt(sigma^2/(2*theta))`
(lines 111 and 45-47, the same formula).  Since the estimator is external,
the embedding is parameterised directly by `mu` and `stationary_std`
together with the keyword configuration of `backtest`; cash and prices are
rationals so concrete runs evaluate by `decide`. -/

/-- The `position_type` values `'long'` / `'short'`. -/
inductive PosType where
  | long
  | short
deriving DecidableEq, Repr

/-- The fitted parameters and configuration a `backtest` run depends on. -/
structure BTConfig where
  mu : ℚ
  stationary_std : ℚ
  threshold_sigma : ℚ
  stop_loss_pct : ℚ
  exit_at_mean : Bool
  allow_short : Bool

/-- The mutable loop state of `backtest` (`trading_strategy.py`
lines 103-112): cash, open position, entry price, position type, trade
count and the three recorded histories. -/
structure BTState where
  cash : ℚ
  position : ℤ
  entry_price : ℚ
  ptype : Option PosType
  trades : ℕ
  signals : List Signal
  positions : List ℤ
  pvalues : List ℚ

/-- Python's `int()` applied to a quotient: truncation toward zero. -/
def truncQ (q : ℚ) : ℤ :=
  if 0 ≤ q then ⌊q⌋ else -⌊-q⌋

/-- The signal computed inside the backtest loop (line 116): after `fit`
the parameters are set, so `generate_signal` reduces to the z-score
comparison with the precomputed `stationary_std`. -/
def signalOf (cfg : BTConfig) (current_price : ℚ) : Signal :=
  let z_score := (current_price - cfg.mu) / cfg.stationary_std
  if z_score > cfg.threshold_sigma then .SELL
  else if z_score < -cfg.threshold_sigma then .BUY
  else .HOLD

/-- Position entry (`trading_strategy.py` lines 123-141): open a long on
BUY (resp. a short on SELL, if allowed) when flat, with
`shares = int(cash/price)`, skipped when `shares = 0`. -/
def enterPhase (cfg : BTConfig) (sig : Signal) (current_price : ℚ)
    (s : BTState) : BTState :=
  if sig = .BUY ∧ s.position = 0 then
    let shares := truncQ (s.cash / current_price)
    if 0 < shares then
      { s with position := shares, ptype := some .long,
               entry_price := current_price,
               cash := s.cash - shares * current_price,
               trades := s.trades + 1 }
    else s
  else if sig = .SELL ∧ s.position = 0 ∧ cfg.allow_short then
    let shares := truncQ (s.cash / current_price)
    if 0 < shares then
      { s with position := shares, ptype := some .short,
               entry_price := current_price,
               cash := s.cash + shares * current_price,
               trades := s.trades + 1 }
    else s
  else s

/-- Closing a long position credits `cash += shares * price`
(`trading_strategy.py` lines 148-151 and twins). -/
def closeLong (current_price : ℚ) (s : BTState) : BTState :=
  { s with cash := s.cash + s.position * current_price,
           position := 0, ptype := none, entry_price := 0,
           trades := s.trades + 1 }

/-- Closing a short position credits
`cash += shares * (2*entry_price - price)` (`trading_strategy.py`
lines 173-176 and twins). -/
def closeShort (current_price : ℚ) (s : BTState) : BTState :=
  { s with cash := s.cash + s.position * (2 * s.entry_price - current_price),
           position := 0, ptype := none, entry_price := 0,
           trades := s.trades + 1 }

/-- Position exit (`trading_strategy.py` lines 143-191): stop-loss, then
mean-crossing (when `exit_at_mean`), then opposing-signal exit, for a long
or else a short. -/
def exitPhase (cfg : BTConfig) (sig : Signal)
    (deviation prev_deviation current_price : ℚ) (s : BTState) : BTState :=
  if 0 < s.position ∧ s.ptype = some .long then
    let loss_pct := (s.entry_price - current_price) / s.entry_price
    if loss_pct > cfg.stop_loss_pct then closeLong current_price s
    else if cfg.exit_at_mean ∧ prev_deviation < 0 ∧ 0 ≤ deviation then
      closeLong current_price s
    else if sig = .SELL then closeLong current_price s
    else s
  else if 0 < s.position ∧ s.ptype = some .short then
    let loss_pct := (current_price - s.entry_price) / s.entry_price
    if loss_pct > cfg.stop_loss_pct then closeShort current_price s
    else if cfg.exit_at_mean ∧ 0 < prev_deviation ∧ deviation ≤ 0 then
      closeShort current_price s
    else if sig = .BUY then closeShort current_price s
    else s
  else s

/-- Mark-to-market recording (`trading_strategy.py` lines 193-203):
append the step's portfolio value and position. -/
def recordPhase (current_price : ℚ) (s : BTState) : BTState :=
  let portfolio_value :=
    if 0 < s.position then
      if s.ptype = some .long then s.cash + s.position * current_price
      else s.cash + s.position * (2 * s.entry_price - current_price)
    else s.cash
  { s with pvalues := s.pvalues ++ [portfolio_value],
           positions := s.positions ++ [s.position] }

/-- One iteration of the backtest loop (`trading_strategy.py`
lines 114-203), for previous price `prev` and current price `p`. -/
def btStep (cfg : BTConfig) (prev p : ℚ) (s : BTState) : BTState :=
  let sig := signalOf cfg p
  let s0 := { s with signals := s.signals ++ [sig] }
  recordPhase p
    (exitPhase cfg sig (p - cfg.mu) (prev - cfg.mu) p
      (enterPhase cfg sig p s0))

/-- The backtest loop over the remaining prices, threading the previous
price (`prev_price = data[i-1] if i > 0 else current_price`, line 120). -/
def btLoop (cfg : BTConfig) (prev : ℚ) : List ℚ → BTState → BTState
  | [], s => s
  | p :: ps, s => btLoop cfg p ps (btStep cfg prev p s)

/-- The initial backtest state (`trading_strategy.py` lines 103-112):
flat, all cash, `portfolio_values = [initial_capital]`. -/
def btInit (initial_capital : ℚ) : BTState :=
  { cash := initial_capital, position := 0, entry_price := 0, ptype := none,
    trades := 0, signals := [], positions := [],
    pvalues := [initial_capital] }

/-- The full backtest loop over `data` (on the first iteration the
previous price equals the current one). -/
def btRun (cfg : BTConfig) (initial_capital : ℚ) (data : List ℚ) : BTState :=
  match data with
  | [] => btInit initial_capital
  | p :: ps => btLoop cfg p ps (btStep cfg p p (btInit initial_capital))

/-- Inner loop of `_calculate_max_drawdown` (`trading_strategy.py`
lines 230-235): running peak, `dd = (peak - value)/peak`, running max. -/
def mddGo (peak max_dd : ℚ) : List ℚ → ℚ
  | [] => max_dd
  | v :: vs =>
    let peak1 := if v > peak then v else peak
    let dd := (peak1 - v) / peak1
    mddGo peak1 (if dd > max_dd then dd else max_dd) vs

/-- Embedding of `MeanReversionStrategy._calculate_max_drawdown` (`trading_strategy.py`
lines 226-237): `peak` starts at the first value and the loop then visits
every value (the first one again included). -/
def calculate_max_drawdown (portfolio_values : List ℚ) : ℚ :=
  match portfolio_values with
  | [] => 0
  | v :: vs => mddGo v 0 (v :: vs)

/-- The record returned by `backtest` (`trading_strategy.py`
lines 216-224).  The `sharpe_ratio` entry is omitted: it needs the
standard deviation of the float returns and no claim mentions it. -/
structure BacktestResult where
  signals : List Signal
  positions : List ℤ
  portfolio_values : List ℚ
  total_return : ℚ
  num_trades : ℕ
  max_drawdown : ℚ

/-- Forced liquidation and result assembly (`trading_strategy.py`
lines 205-224): any open position is closed at `data[-1]`, the final
`portfolio_values` entry is overwritten with the resulting cash, and the
summary record is built.  Note the `positions` history is not touched. -/
def finalize (initial_capital : ℚ) (data : List ℚ) (s : BTState) :
    BacktestResult :=
  let s1 :=
    if 0 < s.position then
      let last_price := data.getLastD 0
      let cash :=
        if s.ptype = some .long then s.cash + s.position * last_price
        else s.cash + s.position * (2 * s.entry_price - last_price)
      { s with cash := cash, pvalues := s.pvalues.dropLast ++ [cash] }
    else s
  { signals := s1.signals
    positions := s1.positions
    portfolio_values := s1.pvalues
    total_return := (s1.pvalues.getLastD 0 - initial_capital) / initial_capital
    num_trades := s1.trades
    max_drawdown := calculate_max_drawdown s1.pvalues }

/-- Embedding of `MeanReversionStrategy.backtest` (`trading_strategy.py`
lines 100-224), parameterised by the fitted `(mu, stationary_std)` pair
and the keyword configuration. -/
def backtest (cfg : BTConfig) (initial_capital : ℚ) (data : List ℚ) :
    BacktestResult :=
  finalize initial_capital data (btRun cfg initial_capital data)

/-! ## Helper lemmas -/

theorem sell_ne_buy : Signal.SELL ≠ Signal.BUY := by decide

theorem buy_ne_sell : Signal.BUY ≠ Signal.SELL := by decide

theorem hold_ne_buy : Signal.HOLD ≠ Signal.BUY := by decide

theorem hold_ne_sell : Signal.HOLD ≠ Signal.SELL := by decide

theorem short_ne_long : PosType.short ≠ PosType.long := by decide

theorem long_ne_short : PosType.long ≠ PosType.short := by decide

theorem none_ne_some_long : (none : Option PosType) ≠ some PosType.long := by decide

theorem none_ne_some_short : (none : Option PosType) ≠ some PosType.short := by decide

theorem getLastD_append {α : Type} (l : List α) (x d : α) :
    (l ++ [x]).getLastD d = x := by
  induction l generalizing d with
  | nil => rfl
  | cons a l ih =>
    rw [List.cons_append, List.getLastD_cons]
    exact ih a

/-! ### Evaluation lemmas for the IEEE z-score pipeline -/

theorem generate_signal_eval (theta mu sigma t x : ℝ) :
    MeanReversionStrategy.generate_signal ⟨some (theta, mu, sigma), t⟩ x =
      (if fgt (zdiv (x - mu) (fsqrt (fdiv (sigma ^ 2) (2 * theta)))) t
        then Signal.SELL
       else if flt (zdiv (x - mu) (fsqrt (fdiv (sigma ^ 2) (2 * theta)))) (-t)
        then Signal.BUY
       else Signal.HOLD) := rfl

theorem fdiv_fin (a b : ℝ) (ha : a ≠ 0) (hb : b ≠ 0) :
    fdiv a b = .fin (a / b) := by
  unfold fdiv
  rw [if_neg hb, if_neg ha]

theorem fdiv_zero_neg (a b : ℝ) (ha : a = 0) (hb : b < 0) :
    fdiv a b = .zero true := by
  unfold fdiv
  rw [if_neg (ne_of_lt hb), if_pos ha, if_pos hb]

theorem fdiv_pos_zero (a b : ℝ) (ha : 0 < a) (hb : b = 0) :
    fdiv a b = .inf false := by
  unfold fdiv
  rw [if_pos hb, if_neg (ne_of_gt ha), if_pos ha]

theorem fdiv_nan (a b : ℝ) (ha : a = 0) (hb : b = 0) :
    fdiv a b = .nan := by
  unfold fdiv
  rw [if_pos hb, if_pos ha]

theorem fsqrt_nan : fsqrt .nan = .nan := rfl

theorem fsqrt_inf_pos : fsqrt (.inf false) = .inf false := rfl

theorem fsqrt_zero (b : Bool) : fsqrt (.zero b) = .zero b := rfl

theorem fsqrt_fin_neg (r : ℝ) (h : r < 0) : fsqrt (.fin r) = .nan := by
  unfold fsqrt
  dsimp only
  rw [if_pos h]

theorem fsqrt_fin_nonneg (r : ℝ) (h : 0 ≤ r) :
    fsqrt (.fin r) = .fin (Real.sqrt r) := by
  unfold fsqrt
  dsimp only
  rw [if_neg (not_lt.mpr h)]

theorem zdiv_nan (a : ℝ) : zdiv a .nan = .nan := rfl

theorem fgt_nan (t : ℝ) : ¬ fgt .nan t := fun h => h

theorem flt_nan (t : ℝ) : ¬ flt .nan t := fun h => h

theorem zdiv_inf_zero (a : ℝ) (b : Bool) :
    zdiv a (.inf b) = .zero true ∨ zdiv a (.inf b) = .zero false := by
  unfold zdiv
  dsimp only
  split_ifs <;> simp

theorem zdiv_zero_true_pos (a : ℝ) (h : 0 < a) :
    zdiv a (.zero true) = .inf true := by
  unfold zdiv
  dsimp only
  rw [if_neg (ne_of_gt h), if_neg (not_lt.mpr (le_of_lt h))]
  simp

theorem zdiv_zero_true_neg (a : ℝ) (h : a < 0) :
    zdiv a (.zero true) = .inf false := by
  unfold zdiv
  dsimp only
  rw [if_neg (ne_of_lt h), if_pos h]
  simp

theorem zdiv_zero_of_eq (a : ℝ) (h : a = 0) (b : Bool) :
    zdiv a (.zero b) = .nan := by
  unfold zdiv
  dsimp only
  rw [if_pos h]

theorem zdiv_fin (a s : ℝ) (ha : a ≠ 0) : zdiv a (.fin s) = .fin (a / s) := by
  unfold zdiv
  dsimp only
  rw [if_neg ha]

theorem zdiv_fin_zero (a s : ℝ) (ha : a = 0) (hs : ¬ s < 0) :
    zdiv a (.fin s) = .zero false := by
  unfold zdiv
  dsimp only
  rw [if_pos ha, if_neg hs]

/-! ## Claims about the OU process analytics -/

/-- Claim C4, counterexample: at `theta = -1` the source's `half_life`
does return a numeric result, namely `log 2 / (-1) < 0`, with no
positivity check, while `stationary_variance` does return `None`. -/
theorem C4_counterexample :
    OUProcess.half_life ⟨-1, 0, 1, 1⟩ < 0 ∧
    OUProcess.stationary_variance ⟨-1, 0, 1, 1⟩ = none := by
  constructor
  · show Real.log 2 / (-1 : ℝ) < 0
    have h2 : 0 < Real.log 2 := Real.log_pos (by norm_num)
    rw [div_neg_iff]
    exact Or.inl ⟨h2, by norm_num⟩
  · show OUProcess.stationary_variance _ = none
    unfold OUProcess.stationary_variance
    norm_num

/-- Claim C4 (amended): for every `theta ≤ 0`, `stationary_variance`
reports the quantity as undefined (`None`), but `half_life` performs no
check and still computes `log 2 / theta` with the non-positive `theta`. -/
theorem C4_theorem (P : OUProcess) (h : P.theta ≤ 0) :
    P.stationary_variance = none ∧ P.half_life = Real.log 2 / P.theta := by
  refine ⟨?_, rfl⟩
  unfold OUProcess.stationary_variance
  exact if_pos h

/-- Witness for C4 at the concrete model `theta = -1, mu = 0, sigma = 1`. -/
theorem C4_witness :
    OUProcess.stationary_variance ⟨-2, 3, 1, 1⟩ = none ∧
    OUProcess.half_life ⟨-2, 3, 1, 1⟩ = Real.log 2 / (-2 : ℝ) :=
  C4_theorem ⟨-2, 3, 1, 1⟩ (by norm_num)

/-- Claim C8: for every model with `theta > 0` and every `x0 ≠ mu`,
`expected_value (half_life()) x0 - mu` is exactly half of `x0 - mu`. -/
theorem C8_theorem (P : OUProcess) (hθ : 0 < P.theta) (x0 : ℝ)
    (hx : x0 ≠ P.mu) :
    P.expected_value P.half_life x0 - P.mu = (x0 - P.mu) / 2 := by
  unfold OUProcess.expected_value OUProcess.half_life
  have hθ0 : P.theta ≠ 0 := ne_of_gt hθ
  have h1 : -P.theta * (Real.log 2 / P.theta) = -Real.log 2 := by
    field_simp
    ring
  rw [h1, Real.exp_neg, Real.exp_log (by norm_num : (0:ℝ) < 2)]
  ring

/-- Witness for C8 at `theta = 1, mu = 0, sigma = 1, x0 = 1`. -/
theorem C8_witness :
    OUProcess.expected_value ⟨1, 0, 1, 1⟩ (OUProcess.half_life ⟨1, 0, 1, 1⟩) 1
      - 0 = (1 - 0) / 2 := by
  have h := C8_theorem ⟨1, 0, 1, 1⟩ (by norm_num) 1
    (show (1:ℝ) ≠ 0 by norm_num)
  simpa using h

/-- Claim C10: on an unfitted strategy, `get_position_size` returns `0.0`
for every price and base size, and `get_stop_loss` returns `(None, None)`
for every `k`, without raising. -/
theorem C10_theorem (t x base_size k : ℝ) :
    MeanReversionStrategy.get_position_size ⟨none, t⟩ x base_size = 0 ∧
    MeanReversionStrategy.get_stop_loss ⟨none, t⟩ k = (none, none) :=
  ⟨rfl, rfl⟩

/-- Claim C3, counterexample: a fit that produced `theta = -1 ≤ 0` leaves
the parameters set (not `None`), so `generate_signal` does not return
NO_SIGNAL — with `sigma = 1` the z-score is `nan` and the answer is HOLD;
worse, with `sigma = 0` (an exactly deterministic explosive fit) the
stationary std is `-0.0`, the z-score of a price above the mean is
`-inf`, and the answer is BUY — so "never returns BUY or SELL in those
states" also fails. -/
theorem C3_counterexample :
    MeanReversionStrategy.generate_signal ⟨some (-1, 0, 1), 2⟩ 100 ≠
      Signal.NO_SIGNAL ∧
    MeanReversionStrategy.generate_signal ⟨some (-1, 0, 0), 2⟩ 100 =
      Signal.BUY := by
  constructor
  · rw [generate_signal_eval,
      fdiv_fin ((1:ℝ) ^ 2) (2 * (-1)) (by norm_num) (by norm_num),
      fsqrt_fin_neg _ (by norm_num), zdiv_nan,
      if_neg (fgt_nan _), if_neg (flt_nan _)]
    decide
  · rw [generate_signal_eval,
      fdiv_zero_neg ((0:ℝ) ^ 2) (2 * (-1)) (by norm_num) (by norm_num),
      fsqrt_zero, zdiv_zero_true_pos _ (by norm_num),
      if_neg (by simp [fgt]), if_pos (show flt (.inf true) (-(2:ℝ)) from rfl)]

/-- Claim C3 (amended): `generate_signal` returns NO_SIGNAL exactly when
no fit has happened (the parameters are still unset); after any fit the
answer is BUY/SELL/HOLD, never NO_SIGNAL.  In the "model unusable" states
the answer is HOLD when `theta < 0` with `sigma ≠ 0` (`nan` z-score) and
when `theta = 0` (given a nonnegative threshold); but when `theta < 0`
with `sigma = 0` the signed-zero std makes the z-score an infinity with
inverted sign, so the signal is BUY above the mean and SELL below it
(HOLD exactly at the mean) rather than a non-signal. -/
theorem C3_theorem :
    (∀ (s : MeanReversionStrategy) (x : ℝ),
      s.generate_signal x = Signal.NO_SIGNAL ↔ s.fitted = none) ∧
    (∀ (theta mu sigma t x : ℝ), theta < 0 → sigma ≠ 0 →
      MeanReversionStrategy.generate_signal ⟨some (theta, mu, sigma), t⟩ x =
        Signal.HOLD) ∧
    (∀ (mu sigma t x : ℝ), 0 ≤ t →
      MeanReversionStrategy.generate_signal ⟨some (0, mu, sigma), t⟩ x =
        Signal.HOLD) ∧
    (∀ (theta mu sigma t x : ℝ), theta < 0 → sigma = 0 →
      (mu < x →
        MeanReversionStrategy.generate_signal ⟨some (theta, mu, sigma), t⟩ x =
          Signal.BUY) ∧
      (x < mu →
        MeanReversionStrategy.generate_signal ⟨some (theta, mu, sigma), t⟩ x =
          Signal.SELL) ∧
      (x = mu →
        MeanReversionStrategy.generate_signal ⟨some (theta, mu, sigma), t⟩ x =
          Signal.HOLD)) := by
  refine ⟨?_, ?_, ?_, ?_⟩
  · rintro ⟨fitted, t⟩ x
    cases fitted with
    | none => simp [MeanReversionStrategy.generate_signal]
    | some p =>
      obtain ⟨theta, mu, sigma⟩ := p
      rw [generate_signal_eval]
      simp only [Option.some.injEq, iff_false, reduceCtorEq]
      split_ifs <;> simp
  · intro theta mu sigma t x hθ hσ
    have hσ2 : 0 < sigma ^ 2 := by positivity
    have hrad : sigma ^ 2 / (2 * theta) < 0 :=
      div_neg_of_pos_of_neg hσ2 (by linarith)
    rw [generate_signal_eval, fdiv_fin _ _ (ne_of_gt hσ2) (by linarith),
      fsqrt_fin_neg _ hrad, zdiv_nan, if_neg (fgt_nan _), if_neg (flt_nan _)]
  · intro mu sigma t x ht
    by_cases hσ : sigma = 0
    · rw [generate_signal_eval, fdiv_nan _ _ (by simp [hσ]) (by norm_num),
        fsqrt_nan, zdiv_nan, if_neg (fgt_nan _), if_neg (flt_nan _)]
    · have hσ2 : 0 < sigma ^ 2 := by positivity
      rw [generate_signal_eval, fdiv_pos_zero _ _ hσ2 (by norm_num),
        fsqrt_inf_pos]
      rcases zdiv_inf_zero (x - mu) false with h | h <;>
        rw [h, if_neg (show ¬ fgt (FloatClass.zero _) t by
              dsimp only [fgt]; linarith),
            if_neg (show ¬ flt (FloatClass.zero _) (-t) by
              dsimp only [flt]; linarith)]
  · intro theta mu sigma t x hθ hσ
    subst hσ
    have he : fsqrt (fdiv ((0:ℝ) ^ 2) (2 * theta)) = .zero true := by
      rw [fdiv_zero_neg _ _ (by norm_num) (by linarith), fsqrt_zero]
    refine ⟨?_, ?_, ?_⟩
    · intro hlt
      rw [generate_signal_eval, he, zdiv_zero_true_pos _ (by linarith),
        if_neg (by simp [fgt]), if_pos (show flt (.inf true) (-t) from rfl)]
    · intro hlt
      rw [generate_signal_eval, he, zdiv_zero_true_neg _ (by linarith),
        if_pos (show fgt (.inf false) t from rfl)]
    · intro heq
      rw [generate_signal_eval, he, zdiv_zero_of_eq _ (by rw [heq, sub_self]) _,
        if_neg (fgt_nan _), if_neg (flt_nan _)]

/-- Witness for C3 at `theta = -2 < 0` with `sigma = 1 ≠ 0`: the signal
is HOLD, not NO_SIGNAL. -/
theorem C3_witness :
    MeanReversionStrategy.generate_signal ⟨some (-2, 5, 1), 3⟩ 7 =
      Signal.HOLD :=
  C3_theorem.2.1 (-2) 5 1 3 7 (by norm_num) (by norm_num)

/-- Claim C5: for a fitted model with `theta > 0` (with `sigma ≠ 0` so
the stationary standard deviation is positive and the z-score is defined,
and a nonnegative threshold as in the configuration's "number of standard
deviations", default 2.0), `generate_signal` returns SELL iff
`z > threshold`, BUY iff `z < -threshold`, and HOLD otherwise; boundary
z-scores (`z = threshold` or `z = -threshold`) give HOLD. -/
theorem C5_theorem (theta mu sigma t x : ℝ) (hθ : 0 < theta)
    (hσ : sigma ≠ 0) (ht : 0 ≤ t) (z : ℝ)
    (hz : z = (x - mu) / Real.sqrt (sigma ^ 2 / (2 * theta))) :
    (MeanReversionStrategy.generate_signal ⟨some (theta, mu, sigma), t⟩ x =
        Signal.SELL ↔ z > t) ∧
    (MeanReversionStrategy.generate_signal ⟨some (theta, mu, sigma), t⟩ x =
        Signal.BUY ↔ z < -t) ∧
    (MeanReversionStrategy.generate_signal ⟨some (theta, mu, sigma), t⟩ x =
        Signal.HOLD ↔ -t ≤ z ∧ z ≤ t) := by
  have hσ2 : 0 < sigma ^ 2 := by positivity
  have hr : 0 < sigma ^ 2 / (2 * theta) := div_pos hσ2 (by linarith)
  have hs : 0 < Real.sqrt (sigma ^ 2 / (2 * theta)) := Real.sqrt_pos.mpr hr
  have e0 : fsqrt (fdiv (sigma ^ 2) (2 * theta)) =
      .fin (Real.sqrt (sigma ^ 2 / (2 * theta))) := by
    rw [fdiv_fin _ _ (ne_of_gt hσ2) (by linarith), fsqrt_fin_nonneg _ (le_of_lt hr)]
  by_cases hd : x - mu = 0
  · have hz0 : z = 0 := by rw [hz, hd, zero_div]
    rw [generate_signal_eval, e0, zdiv_fin_zero _ _ hd (not_lt.mpr (le_of_lt hs)),
      if_neg (show ¬ fgt (FloatClass.zero false) t by dsimp only [fgt]; linarith),
      if_neg (show ¬ flt (FloatClass.zero false) (-t) by dsimp only [flt]; linarith)]
    exact ⟨iff_of_false hold_ne_sell (by rw [hz0]; intro hc; linarith),
      iff_of_false hold_ne_buy (by rw [hz0]; intro hc; linarith),
      iff_of_true rfl ⟨by rw [hz0]; linarith, by rw [hz0]; linarith⟩⟩
  · have ez : zdiv (x - mu) (fsqrt (fdiv (sigma ^ 2) (2 * theta))) = .fin z := by
      rw [e0, zdiv_fin _ _ hd, hz]
    rw [generate_signal_eval, ez]
    by_cases h1 : z > t
    · rw [if_pos (show fgt (FloatClass.fin z) t from h1)]
      exact ⟨iff_of_true rfl h1,
        iff_of_false sell_ne_buy (by linarith),
        iff_of_false hold_ne_sell.symm (fun hc => by linarith [hc.2])⟩
    · rw [if_neg (show ¬ fgt (FloatClass.fin z) t from h1)]
      by_cases h2 : z < -t
      · rw [if_pos (show flt (FloatClass.fin z) (-t) from h2)]
        exact ⟨iff_of_false buy_ne_sell h1,
          iff_of_true rfl h2,
          iff_of_false hold_ne_buy.symm (fun hc => by linarith [hc.1])⟩
      · rw [if_neg (show ¬ flt (FloatClass.fin z) (-t) from h2)]
        push_neg at h1 h2
        exact ⟨iff_of_false hold_ne_sell (not_lt.mpr h1),
          iff_of_false hold_ne_buy (not_lt.mpr h2),
          iff_of_true rfl ⟨h2, h1⟩⟩

/-- Witness for C5: with `theta = 1/2, mu = 0, sigma = 1` the stationary
standard deviation is `1`; at price `3` and threshold `2` the z-score is
`3 > 2` and the signal is SELL. -/
theorem C5_witness :
    0 < (1/2 : ℝ) ∧ ((1:ℝ) ≠ 0) ∧
    MeanReversionStrategy.generate_signal ⟨some (1/2, 0, 1), 2⟩ 3 =
      Signal.SELL := by
  refine ⟨by norm_num, by norm_num, ?_⟩
  have h := (C5_theorem (1/2) 0 1 2 3 (by norm_num) (by norm_num) (by norm_num)
    ((3 - 0) / Real.sqrt ((1:ℝ) ^ 2 / (2 * (1/2)))) rfl).1
  apply h.mpr
  rw [show ((1:ℝ) ^ 2 / (2 * (1/2))) = 1 by norm_num, Real.sqrt_one]
  norm_num

/-! ## Claims about the path simulators -/

/-- Claim C7, counterexample: with no explicit seed, `simulate` reads the
shared global generator state, so the path depends on state left behind
by other calls — under the draw stream `fun s i => i`, starting from
ambient states `(0, 0)` and `(0, 1)` the same call returns different
paths.  Random state is not isolated per call. -/
theorem C7_counterexample :
    (OUProcess.simulate ⟨0, 0, 1, 1⟩ (fun _ i => (i : ℝ)) 2 0 none (0, 0)).1 ≠
    (OUProcess.simulate ⟨0, 0, 1, 1⟩ (fun _ i => (i : ℝ)) 2 0 none (0, 1)).1 := by
  simp only [OUProcess.simulate, simAux, npNormal, Real.sqrt_one]
  norm_num

/-- Claim C7 (amended): with the same explicit seed, `simulate` and
`simulate_exact` return identical paths regardless of the ambient global
generator state (the call reseeds the shared generator); but the calls
act on that shared global state rather than an isolated per-call
generator, as the counterexample shows for seedless calls. -/
theorem C7_theorem :
    (∀ (P : OUProcess) (oracle : ℕ → ℕ → ℝ) (n : ℕ) (x0 : ℝ) (s : ℕ)
        (g1 g2 : RngState),
      (P.simulate oracle n x0 (some s) g1).1 =
        (P.simulate oracle n x0 (some s) g2).1) ∧
    (∀ (P : OUProcess) (oracle : ℕ → ℕ → ℝ) (n : ℕ) (x0 : ℝ) (s : ℕ)
        (g1 g2 : RngState),
      (P.simulate_exact oracle n x0 (some s) g1).1 =
        (P.simulate_exact oracle n x0 (some s) g2).1) :=
  ⟨fun _ _ _ _ _ _ _ => rfl, fun _ _ _ _ _ _ _ => rfl⟩

/-! ## Claims about the backtest engine -/

theorem mddGo_ge (peak max_dd : ℚ) (l : List ℚ) :
    max_dd ≤ mddGo peak max_dd l := by
  induction l generalizing peak max_dd with
  | nil => exact le_refl _
  | cons v vs ih =>
    rw [mddGo]
    refine le_trans ?_ (ih _ _)
    dsimp only
    split_ifs <;> linarith

theorem mddGo_le_one (peak max_dd : ℚ) (l : List ℚ) (hp : 0 < peak)
    (hm : max_dd ≤ 1) (hl : ∀ v ∈ l, 0 < v) : mddGo peak max_dd l ≤ 1 := by
  induction l generalizing peak max_dd with
  | nil => exact hm
  | cons v vs ih =>
    have hv : 0 < v := hl v (List.mem_cons_self v vs)
    have hp1 : 0 < (if v > peak then v else peak) := by
      split_ifs with h
      · exact hv
      · exact hp
    rw [mddGo]
    refine ih _ _ hp1 ?_ (fun w hw => hl w (List.mem_cons_of_mem v hw))
    split_ifs with h1 h2 h3
    · rw [div_le_one hv]
      linarith
    · exact hm
    · rw [div_le_one hp]
      linarith
    · exact hm

theorem calculate_max_drawdown_nonneg (l : List ℚ) :
    0 ≤ calculate_max_drawdown l := by
  cases l with
  | nil => exact le_refl _
  | cons v vs => exact mddGo_ge v 0 (v :: vs)

theorem calculate_max_drawdown_le_one (l : List ℚ) (hl : ∀ v ∈ l, 0 < v) :
    calculate_max_drawdown l ≤ 1 := by
  cases l with
  | nil => norm_num [calculate_max_drawdown]
  | cons v vs =>
    exact mddGo_le_one v 0 (v :: vs) (hl v (List.mem_cons_self v vs))
      (by norm_num) hl

/-- Claim C2, counterexample: with fitted mean `0`, stationary std `1`,
threshold `2`, default configuration and capital `10000`, the series
`[10, 100]` opens a short at `10` and stop-loss-closes it at `100`,
driving the portfolio value to `-60000`; the drawdown against the running
peak `30000` is `3`, outside `[0, 1]`. -/
theorem C2_counterexample :
    ¬ ((backtest ⟨0, 1, 2, 1/5, true, true⟩ 10000 [10, 100]).max_drawdown ≤ 1) := by
  norm_num [backtest, btRun, btLoop, btStep, btInit, enterPhase, exitPhase,
    recordPhase, closeLong, closeShort, signalOf, truncQ, finalize,
    calculate_max_drawdown, mddGo, sell_ne_buy, buy_ne_sell, hold_ne_buy,
    hold_ne_sell, short_ne_long, long_ne_short, none_ne_some_long,
    none_ne_some_short]

/-- Claim C2 (amended): `max_drawdown` is the largest peak-to-trough
fractional decline against a running, never-reset peak; it is always
`≥ 0`, and it lies in `[0, 1]` whenever every recorded portfolio value is
positive — but it can exceed `1` when short-position losses drive the
portfolio value negative. -/
theorem C2_theorem (cfg : BTConfig) (initial_capital : ℚ) (data : List ℚ) :
    (backtest cfg initial_capital data).max_drawdown =
      calculate_max_drawdown (backtest cfg initial_capital data).portfolio_values ∧
    0 ≤ (backtest cfg initial_capital data).max_drawdown ∧
    ((∀ v ∈ (backtest cfg initial_capital data).portfolio_values, 0 < v) →
      (backtest cfg initial_capital data).max_drawdown ≤ 1) :=
  ⟨rfl, calculate_max_drawdown_nonneg _,
   fun h => calculate_max_drawdown_le_one _ h⟩

/-- Witness for C2 on the empty series with capital `100`: the single
recorded portfolio value `100` is positive and the drawdown is in
`[0, 1]`. -/
theorem C2_witness :
    (∀ v ∈ (backtest ⟨0, 1, 2, 1/5, true, true⟩ 100 []).portfolio_values, 0 < v) ∧
    (backtest ⟨0, 1, 2, 1/5, true, true⟩ 100 []).max_drawdown ≤ 1 := by
  have hv : ∀ v ∈ (backtest ⟨0, 1, 2, 1/5, true, true⟩ 100 []).portfolio_values,
      0 < v := by
    norm_num [backtest, btRun, btInit, finalize]
  exact ⟨hv, (C2_theorem ⟨0, 1, 2, 1/5, true, true⟩ 100 []).2.2 hv⟩

/-- Claim C1, evaluation at the failing input: with fitted mean `50`,
stationary std `1`, threshold `2` and capital `10000`, the series
`[60, 40]` runs exactly one short round trip (open `166` shares at
`entry = 60`, mean-crossing close at `40`, `num_trades = 2`).  The open
credits `166 * 60` and the close credits `166 * (2*60 - 40)`, so the
final cash is `10000 + 166 * (3*60 - 40) = 33240`, not the standard
short profit-and-loss `10000 + 166 * (60 - 40) = 13320` asserted by the
claim: the proceeds are double-counted. -/
theorem C1_theorem :
    (backtest ⟨50, 1, 2, 1/5, true, true⟩ 10000 [60, 40]).positions = [166, 0] ∧
    (backtest ⟨50, 1, 2, 1/5, true, true⟩ 10000 [60, 40]).num_trades = 2 ∧
    (backtest ⟨50, 1, 2, 1/5, true, true⟩ 10000 [60, 40]).portfolio_values =
      [10000, 29920, 33240] ∧
    (33240 : ℚ) = 10000 + 166 * (3 * 60 - 40) ∧
    (33240 : ℚ) ≠ 10000 + 166 * (60 - 40) := by
  norm_num [backtest, btRun, btLoop, btStep, btInit, enterPhase, exitPhase,
    recordPhase, closeLong, closeShort, signalOf, truncQ, finalize,
    calculate_max_drawdown, mddGo, sell_ne_buy, buy_ne_sell, hold_ne_buy,
    hold_ne_sell, short_ne_long, long_ne_short, none_ne_some_long,
    none_ne_some_short]

/-! ### Loop invariants: recorded positions and trade-count parity -/

theorem recordPhase_positions_last (p : ℚ) (s : BTState) :
    (recordPhase p s).positions.getLastD 0 = (recordPhase p s).position :=
  getLastD_append s.positions s.position 0

theorem btStep_positions_last (cfg : BTConfig) (prev p : ℚ) (s : BTState) :
    (btStep cfg prev p s).positions.getLastD 0 = (btStep cfg prev p s).position :=
  recordPhase_positions_last p _

theorem btLoop_positions_last (cfg : BTConfig) (ps : List ℚ) (prev : ℚ)
    (s : BTState) (h : s.positions.getLastD 0 = s.position) :
    (btLoop cfg prev ps s).positions.getLastD 0 =
      (btLoop cfg prev ps s).position := by
  induction ps generalizing prev s with
  | nil => exact h
  | cons p ps ih => exact ih p _ (btStep_positions_last cfg prev p s)

theorem btRun_positions_last (cfg : BTConfig) (cap : ℚ) (data : List ℚ) :
    (btRun cfg cap data).positions.getLastD 0 = (btRun cfg cap data).position := by
  cases data with
  | nil => rfl
  | cons p ps =>
    exact btLoop_positions_last cfg ps p _ (btStep_positions_last cfg p p _)

/-- The state-machine invariant behind trade counting: the position is
never negative, and it is open exactly when an odd number of trades has
been recorded (each opening and each closing bumps `trades` by one). -/
def TradeInv (s : BTState) : Prop :=
  0 ≤ s.position ∧ (s.position = 0 ↔ s.trades % 2 = 0)

theorem btInit_inv (cap : ℚ) : TradeInv (btInit cap) :=
  ⟨le_refl 0, by norm_num [btInit]⟩

theorem enterPhase_inv (cfg : BTConfig) (sig : Signal) (p : ℚ) (s : BTState)
    (h : TradeInv s) : TradeInv (enterPhase cfg sig p s) := by
  obtain ⟨h1, h2⟩ := h
  unfold TradeInv enterPhase
  dsimp only
  split_ifs with hA hB hC hD <;> simp_all <;> omega

theorem exitPhase_inv (cfg : BTConfig) (sig : Signal) (d pd p : ℚ)
    (s : BTState) (h : TradeInv s) : TradeInv (exitPhase cfg sig d pd p s) := by
  obtain ⟨h1, h2⟩ := h
  unfold TradeInv exitPhase closeLong closeShort
  dsimp only
  split_ifs <;> simp_all <;> omega

theorem btStep_inv (cfg : BTConfig) (prev p : ℚ) (s : BTState)
    (h : TradeInv s) : TradeInv (btStep cfg prev p s) := by
  have h0 : TradeInv { s with signals := s.signals ++ [signalOf cfg p] } := h
  exact exitPhase_inv cfg _ _ _ _ _ (enterPhase_inv cfg _ _ _ h0)

theorem btLoop_inv (cfg : BTConfig) (ps : List ℚ) (prev : ℚ) (s : BTState)
    (h : TradeInv s) : TradeInv (btLoop cfg prev ps s) := by
  induction ps generalizing prev s with
  | nil => exact h
  | cons p ps ih => exact ih p _ (btStep_inv cfg prev p s h)

theorem btRun_inv (cfg : BTConfig) (cap : ℚ) (data : List ℚ) :
    TradeInv (btRun cfg cap data) := by
  cases data with
  | nil => exact btInit_inv cap
  | cons p ps =>
    exact btLoop_inv cfg ps p _ (btStep_inv cfg p p _ (btInit_inv cap))

theorem finalize_num_trades (cfg : BTConfig) (cap : ℚ) (data : List ℚ) :
    (backtest cfg cap data).num_trades = (btRun cfg cap data).trades := by
  unfold backtest finalize
  dsimp only
  split_ifs <;> rfl

theorem finalize_positions (cfg : BTConfig) (cap : ℚ) (data : List ℚ) :
    (backtest cfg cap data).positions = (btRun cfg cap data).positions := by
  unfold backtest finalize
  dsimp only
  split_ifs <;> rfl

/-- Claim C6, counterexample: with fitted mean `100`, stationary std `1`,
threshold `2` and capital `10000`, the one-element series `[10]` opens a
long of `1000` shares which is still open after the last observation; the
returned `positions` history nevertheless ends in `1000`, not `0` — the
forced liquidation never updates the recorded position counts. -/
theorem C6_counterexample :
    0 < (btRun ⟨100, 1, 2, 1/5, true, true⟩ 10000 [10]).position ∧
    (backtest ⟨100, 1, 2, 1/5, true, true⟩ 10000 [10]).positions.getLastD 0 ≠ 0 := by
  norm_num [backtest, btRun, btLoop, btStep, btInit, enterPhase, exitPhase,
    recordPhase, closeLong, closeShort, signalOf, truncQ, finalize,
    calculate_max_drawdown, mddGo, sell_ne_buy, buy_ne_sell, hold_ne_buy,
    hold_ne_sell, short_ne_long, long_ne_short, none_ne_some_long,
    none_ne_some_short]

/-- Claim C6 (amended): when a position is still open after the last
observation, it is liquidated at the last price and the final
`portfolio_values` entry is overwritten with the post-liquidation cash;
but the recorded `positions` history is left untouched, so its last entry
still reports the open (nonzero) share count rather than `0`. -/
theorem C6_theorem (cfg : BTConfig) (cap : ℚ) (data : List ℚ)
    (h : 0 < (btRun cfg cap data).position) :
    (backtest cfg cap data).portfolio_values.getLastD 0 =
      (if (btRun cfg cap data).ptype = some PosType.long then
        (btRun cfg cap data).cash +
          (btRun cfg cap data).position * data.getLastD 0
       else
        (btRun cfg cap data).cash +
          (btRun cfg cap data).position *
            (2 * (btRun cfg cap data).entry_price - data.getLastD 0)) ∧
    (backtest cfg cap data).positions = (btRun cfg cap data).positions ∧
    (backtest cfg cap data).positions.getLastD 0 =
      (btRun cfg cap data).position ∧
    (btRun cfg cap data).position ≠ 0 := by
  refine ⟨?_, finalize_positions cfg cap data, ?_, ne_of_gt h⟩
  · unfold backtest finalize
    dsimp only
    rw [if_pos h]
    exact getLastD_append _ _ _
  · rw [finalize_positions cfg cap data]
    exact btRun_positions_last cfg cap data

/-- Witness for C6 at the concrete run of the counterexample input:
liquidating the `1000`-share long at the last price `10` overwrites the
final portfolio value with `10000`, while the last recorded position
stays `1000`. -/
theorem C6_witness :
    (backtest ⟨100, 1, 2, 1/5, true, true⟩ 10000 [10]).portfolio_values.getLastD 0
      = 10000 ∧
    (backtest ⟨100, 1, 2, 1/5, true, true⟩ 10000 [10]).positions.getLastD 0
      = 1000 := by
  have h0 : 0 < (btRun ⟨100, 1, 2, 1/5, true, true⟩ 10000 [10]).position := by
    norm_num [btRun, btLoop, btStep, btInit, enterPhase, exitPhase,
      recordPhase, closeLong, closeShort, signalOf, truncQ, sell_ne_buy,
      buy_ne_sell, hold_ne_buy, hold_ne_sell, short_ne_long, long_ne_short,
      none_ne_some_long, none_ne_some_short]
  have h := C6_theorem ⟨100, 1, 2, 1/5, true, true⟩ 10000 [10] h0
  constructor
  · rw [h.1]
    norm_num [btRun, btLoop, btStep, btInit, enterPhase, exitPhase,
      recordPhase, closeLong, closeShort, signalOf, truncQ, sell_ne_buy,
      buy_ne_sell, hold_ne_buy, hold_ne_sell, short_ne_long, long_ne_short,
      none_ne_some_long, none_ne_some_short]
  · rw [h.2.2.1]
    norm_num [btRun, btLoop, btStep, btInit, enterPhase, exitPhase,
      recordPhase, closeLong, closeShort, signalOf, truncQ, sell_ne_buy,
      buy_ne_sell, hold_ne_buy, hold_ne_sell, short_ne_long, long_ne_short,
      none_ne_some_long, none_ne_some_short]

/-- Claim C9: `trades` is bumped by exactly one on each opening (entry is
either a one-trade opening leaving a positive position, or a no-op) and
by exactly one on each explicit closing (exit is either a one-trade close
leaving a flat position, or a no-op); the forced end-of-series
liquidation never touches `num_trades`; and the reported `num_trades` is
odd exactly when the backtest ended with an open position (so a completed
round trip contributes 2 and an open-ended run reports an odd count). -/
theorem C9_theorem :
    (∀ (cfg : BTConfig) (sig : Signal) (p : ℚ) (s : BTState),
      ((enterPhase cfg sig p s).trades = s.trades + 1 ∧
        0 < (enterPhase cfg sig p s).position) ∨
      enterPhase cfg sig p s = s) ∧
    (∀ (cfg : BTConfig) (sig : Signal) (d pd p : ℚ) (s : BTState),
      ((exitPhase cfg sig d pd p s).trades = s.trades + 1 ∧
        (exitPhase cfg sig d pd p s).position = 0) ∨
      exitPhase cfg sig d pd p s = s) ∧
    (∀ (cfg : BTConfig) (cap : ℚ) (data : List ℚ),
      (backtest cfg cap data).num_trades = (btRun cfg cap data).trades) ∧
    (∀ (cfg : BTConfig) (cap : ℚ) (data : List ℚ),
      (Odd (backtest cfg cap data).num_trades ↔
        (backtest cfg cap data).positions.getLastD 0 ≠ 0)) := by
  refine ⟨?_, ?_, finalize_num_trades, ?_⟩
  · intro cfg sig p s
    unfold enterPhase
    dsimp only
    split_ifs with hA hB hC hD
    · exact Or.inl ⟨rfl, hB⟩
    · exact Or.inr rfl
    · exact Or.inl ⟨rfl, hD⟩
    · exact Or.inr rfl
    · exact Or.inr rfl
  · intro cfg sig d pd p s
    unfold exitPhase closeLong closeShort
    dsimp only
    split_ifs <;> first | exact Or.inl ⟨rfl, rfl⟩ | exact Or.inr rfl
  · intro cfg cap data
    obtain ⟨hpos, hpar⟩ := btRun_inv cfg cap data
    rw [finalize_num_trades cfg cap data, finalize_positions cfg cap data,
      btRun_positions_last cfg cap data, Nat.odd_iff]
    omega

end MeanReversion
